import Mathlib

/-!
# Verification of the virt-handler cmd-client (`pkg/virt-handler/cmd-client/client.go`)

A shallow embedding of the launcher control-protocol client:

* the channel-addressing functions `SocketsDirectory`, `SocketFromNamespaceName`,
  `DomainFromSocketPath` and the discovery function `ListAllSockets`,
  together with faithful models of the Go standard-library helpers they use
  (`path/filepath.Clean`, `filepath.Join`, `filepath.Base`, `strings.SplitN`);
* `fmt`'s formatting of a format string with an empty operand list, which is
  what `fmt.Errorf(msg)` performs on the pre-formatted messages of
  `genericSendCmd` (client.go:140, client.go:143);
* the command dispatcher `genericSendCmd`, the disconnect classifier
  `IsDisconnected`, and the six named operations built on them
  (`SyncVirtualMachine`, `ShutdownVirtualMachine`, `KillVirtualMachine`,
  `SyncSecret`, `GetDomain`, `Ping`).

Strings are modelled as Lean `String` (a packed `List Char`); the Go source
manipulates byte strings, and every path character the client ever produces is
ASCII, where the two notions agree.  The RPC transport (`rpc.Client.Call`) is
modelled as an explicit oracle parameter mapping a command name and arguments
to the call's outcome (the returned error and the filled-in reply).
-/

namespace CmdClient

/-! ## Go standard-library string/path primitives -/

/-- `strings.SplitN`'s search for the first occurrence of the separator:
returns the (separator-free) piece before the first occurrence of `sep`
and the remainder after it, or `none` when `sep` does not occur. -/
def splitFirst (sep : Char) : List Char → Option (List Char × List Char)
  | [] => none
  | c :: cs =>
    if c = sep then some ([], cs)
    else
      match splitFirst sep cs with
      | none => none
      | some (pre, post) => some (c :: pre, post)

/-- Go `strings.SplitN s sep n` for a single-character separator: splits
around the first `n - 1` occurrences of `sep`; the final element is the
unsplit remainder.  `n = 0` yields the empty list, as in Go. -/
def splitNChar (sep : Char) : Nat → List Char → List (List Char)
  | 0, _ => []
  | 1, cs => [cs]
  | n + 2, cs =>
    match splitFirst sep cs with
    | none => [cs]
    | some (pre, post) => pre :: splitNChar sep (n + 1) post

/-- Full split on every occurrence of `sep` (Go `strings.Split`); used only to
state which pieces of a path segment are "the first two separator-delimited
pieces". -/
def splitChar (sep : Char) : List Char → List (List Char)
  | [] => [[]]
  | c :: cs =>
    if c = sep then [] :: splitChar sep cs
    else
      match splitChar sep cs with
      | [] => [[c]]
      | p :: ps => (c :: p) :: ps

/-- Number of occurrences of a character in a list. -/
def countChar (c : Char) : List Char → Nat
  | [] => 0
  | x :: xs => (if x = c then 1 else 0) + countChar c xs

/-- `strings.Join`-style interleaving of a separator between path elements,
as performed by `filepath.Clean` when it reassembles the cleaned elements. -/
def intercalateChar (sep : Char) : List (List Char) → List Char
  | [] => []
  | [p] => p
  | p :: q :: ps => p ++ sep :: intercalateChar sep (q :: ps)

/-- Does the path begin with the separator `/` (Go `os.IsPathSeparator(path[0])`)? -/
def isRooted : List Char → Bool
  | [] => false
  | c :: _ => c = '/'

/-- One step of the element-processing loop of Go `path/filepath.Clean`
(unix rules).  The accumulator `stack` holds the output elements in reverse
order.  Empty and `.` elements are dropped; `..` pops the previous element
when possible, is dropped at the root of a rooted path, and is kept when a
relative path (whose pending output is all `..`) cannot backtrack. -/
def cleanStep (rooted : Bool) (stack : List (List Char)) (e : List Char) : List (List Char) :=
  if e = [] ∨ e = ['.'] then stack
  else if e = ['.', '.'] then
    match stack with
    | [] => if rooted then [] else [['.', '.']]
    | t :: ts => if t = ['.', '.'] then ['.', '.'] :: t :: ts else ts
  else e :: stack

/-- The element-processing loop of `filepath.Clean`. -/
def cleanFold (rooted : Bool) (stack : List (List Char)) (es : List (List Char)) :
    List (List Char) :=
  es.foldl (cleanStep rooted) stack

/-- Go `path/filepath.Clean` (unix): split on `/`, process the elements, and
reassemble; an empty result is `/` for rooted paths and `.` otherwise. -/
def cleanChars (cs : List Char) : List Char :=
  let rooted := isRooted cs
  let stack := (cleanFold rooted [] (splitChar '/' cs)).reverse
  if stack = [] then (if rooted then ['/'] else ['.'])
  else (if rooted then ['/'] else []) ++ intercalateChar '/' stack

/-- Go `path/filepath.Join` on two elements: the empty elements are skipped
and the rest are joined with `/` and cleaned. -/
def joinChars (a b : List Char) : List Char :=
  if a = [] then (if b = [] then [] else cleanChars b)
  else cleanChars (a ++ '/' :: b)

/-- Go `path/filepath.Base` (unix): strip trailing slashes, then keep
everything after the last slash; degenerate cases produce `.` or `/`. -/
def baseChars (p : List Char) : List Char :=
  if p = [] then ['.']
  else
    let q := (p.reverse.dropWhile (· = '/')).reverse
    let r := (q.reverse.takeWhile (· ≠ '/')).reverse
    if r = [] then ['/'] else r

/-- `filepath.Join` on `String`s. -/
def goJoin (a b : String) : String := ⟨joinChars a.data b.data⟩

/-- `filepath.Base` on `String`s. -/
def goBase (p : String) : String := ⟨baseChars p.data⟩

/-! ### `fmt` formatting with an empty operand list

`genericSendCmd` builds its error messages with `fmt.Sprintf` (whose `%s`
verbs substitute the operand strings verbatim, modelled by `++`) and then
passes the result to `fmt.Errorf(msg)` — as a *format string* with no
operands (client.go:140, client.go:143).  `fmt`'s `doPrintf` therefore
re-parses the pre-formatted message: literal text is copied, `%%` renders as
`%`, a `%` sequence reaching the end of the string renders as `%!(NOVERB)`
and aborts the rest of the format, and every other verb — having no operand
— renders as `%!<verb>(MISSING)` or `%!<verb>(BADINDEX)`, with `%!(BADWIDTH)`
/ `%!(BADPREC)` for `*` widths and precisions.  The functions below follow
`fmt/print.go`'s `doPrintf` specialised to `len(a) == 0`, where the
lowercase-verb fast path never fires and no operand is ever printed. -/

/-- `doPrintf`'s flag scan: `#`, `0`, `+`, `-` and space only adjust print
flags — which never influence the output of an operand-less verb — and are
consumed. -/
def fmtFlags : List Char → List Char
  | [] => []
  | c :: cs =>
    if c = '#' ∨ c = '0' ∨ c = '+' ∨ c = '-' ∨ c = ' ' then fmtFlags cs
    else c :: cs

/-- `fmt`'s `parsenum`: consume leading ASCII digits, reporting whether at
least one digit was present.  The numeric value never influences the output
when there are no operands, so only presence and the remainder are kept. -/
def fmtParsenum : List Char → Bool × List Char
  | [] => (false, [])
  | c :: cs =>
    if '0' ≤ c ∧ c ≤ '9' then (true, (fmtParsenum cs).2)
    else (false, c :: cs)

/-- `fmt`'s `parseArgNumber` on the format remainder following a `'['`: with
fewer than two remaining characters, or no closing `']'`, only the `'['` is
consumed and the index is bad; otherwise everything through the first `']'`
is consumed, and the index is well-formed exactly when the bracket body is
one or more digits. -/
def fmtParseArgNumber (rest : List Char) : Bool × List Char :=
  if rest.length < 2 then (false, rest)
  else
    match splitFirst ']' rest with
    | none => (false, rest)
    | some (body, after) =>
      (!body.isEmpty && body.all (fun c => decide ('0' ≤ c ∧ c ≤ '9')), after)

/-- `fmt`'s `argNumber` with no operands: a `'['` sequence always marks the
argument index bad — there is no operand it could select — and reports
whether a well-formed index was present (`afterIndex`); anything else is
left untouched.  Returns (goodArgNum, afterIndex, remainder). -/
def fmtArgNumber (good : Bool) : List Char → Bool × Bool × List Char
  | '[' :: rest =>
    match fmtParseArgNumber rest with
    | (ok, rem) => (false, ok, rem)
  | cs => (good, false, cs)

/-- One `%` sequence of `doPrintf` with no operands, applied to the format
remainder after the `'%'`: flags, an optional argument index, an optional
width (digits, or `*` which emits `%!(BADWIDTH)`), an optional precision
(`.` followed by at least one character: an index, digits, or `*` which
emits `%!(BADPREC)`), a final index position, then the verb.  Returns the
rendered output and the remainder — `none` after `%!(NOVERB)`, which aborts
the whole format. -/
def fmtOneVerb (cs : List Char) : List Char × Option (List Char) :=
  let r1 := fmtFlags cs
  let s1 := fmtArgNumber true r1
  let good1 := s1.1
  let after1 := s1.2.1
  let r2 := s1.2.2
  let widthStep : List Char × Bool × Bool × List Char :=
    match r2 with
    | '*' :: rest => ("%!(BADWIDTH)".data, good1, false, rest)
    | _ => ([], good1 && !(after1 && (fmtParsenum r2).1), after1, (fmtParsenum r2).2)
  let emitW := widthStep.1
  let good2 := widthStep.2.1
  let after2 := widthStep.2.2.1
  let r3 := widthStep.2.2.2
  let precStep : List Char × Bool × Bool × List Char :=
    match r3 with
    | '.' :: c2 :: rest2 =>
      let s2 := fmtArgNumber (good2 && !after2) (c2 :: rest2)
      (match s2.2.2 with
        | '*' :: rest3 => ("%!(BADPREC)".data, s2.1, false, rest3)
        | rA => ([], s2.1, s2.2.1, (fmtParsenum rA).2))
    | _ => ([], good2, after2, r3)
  let emitP := precStep.1
  let good3 := precStep.2.1
  let after3 := precStep.2.2.1
  let r4 := precStep.2.2.2
  let s3 := if after3 then (good3, r4) else ((fmtArgNumber good3 r4).1, (fmtArgNumber good3 r4).2.2)
  let good4 := s3.1
  match s3.2 with
  | [] => (emitW ++ emitP ++ "%!(NOVERB)".data, none)
  | v :: rest =>
    if v = '%' then (emitW ++ emitP ++ ['%'], some rest)
    else if good4 then (emitW ++ emitP ++ '%' :: '!' :: v :: "(MISSING)".data, some rest)
    else (emitW ++ emitP ++ '%' :: '!' :: v :: "(BADINDEX)".data, some rest)

/-- `fmt`'s `doPrintf` with an empty operand list: copy literal text, render
each `%` sequence with `fmtOneVerb`, stop outright on `%!(NOVERB)`.  Every
iteration consumes at least one character, so the format's length is passed
as (always sufficient) fuel to exhibit termination. -/
def doPrintfNoArgsAux : Nat → List Char → List Char
  | 0, _ => []
  | _ + 1, [] => []
  | fuel + 1, c :: cs =>
    if c = '%' then
      match fmtOneVerb cs with
      | (out, none) => out
      | (out, some rest) => out ++ doPrintfNoArgsAux fuel rest
    else c :: doPrintfNoArgsAux fuel cs

/-- `fmt.Sprintf` (hence `fmt.Errorf`) applied to a format string with no
operands. -/
def goSprintfNoOperands (format : String) : String :=
  ⟨doPrintfNoArgsAux format.data.length format.data⟩

/-! ## Data model -/

/-- Modelled from the spec: `api.NewDomainReferenceFromName` (package
`pkg/virt-launcher/virtwrap/api`, not among the sources) builds a domain
reference from the namespace and name recovered from a socket path; per the
spec, `identityFromAddress` recovers the `WorkloadIdentity`
`{namespace, name}`.  We record exactly those two components. -/
structure WorkloadIdentity where
  ns : String
  name : String
deriving DecidableEq

/-- Modelled from the spec: the domain descriptor (`api.Domain`, not among the
sources) is "the state snapshot returned by the state-query command", opaque
to this layer; we model it as an opaque payload with a zero value. -/
structure Domain where
  payload : String
deriving DecidableEq

/-- The Go zero value `api.Domain{}` ("a zero-value placeholder"). -/
def Domain.zero : Domain := ⟨""⟩

/-- Modelled from the spec: the workload definition (`v1.VirtualMachine`, not
among the sources) is "opaque to this layer beyond being passed through". -/
structure VirtualMachine where
  payload : String
deriving DecidableEq

/-- Modelled from the spec: "a secret map keyed by name"
(`map[string]*k8sv1.Secret`, not among the sources), opaque to this layer. -/
structure SecretMap where
  entries : List (String × String)
deriving DecidableEq

/-- `Args` from client.go.  Go pointer/map fields have nil zero values,
modelled as `Option` with default `none`; string fields default to `""`,
so that a Lean structure literal populating some fields mirrors the Go
composite literal `&Args{...}`. -/
structure Args where
  VM : Option VirtualMachine := none
  K8Secrets : Option SecretMap := none
  SecretUsageType : String := ""
  SecretUsageID : String := ""
  SecretValue : String := ""
deriving DecidableEq

/-- `Reply` from client.go; `Domain` is a nilable pointer. -/
structure Reply where
  Success : Bool := false
  Message : String := ""
  Domain : Option Domain := none
deriving DecidableEq

/-- A Go `error` value as this client observes it: one of the three sentinel
errors compared against in `IsDisconnected` (`rpc.ErrShutdown`,
`io.ErrUnexpectedEOF`, `io.EOF`), or any other error, carrying the string
that `err.Error()` reports (`fmt.Errorf` builds such a value). -/
inductive GoError where
  | errShutdown
  | errUnexpectedEOF
  | eof
  | errorString (msg : String)
deriving DecidableEq

/-- `err.Error()`: the sentinels' fixed messages, or the carried string. -/
def GoError.Error : GoError → String
  | .errShutdown => "connection is shut down"
  | .errUnexpectedEOF => "unexpected EOF"
  | .eof => "EOF"
  | .errorString msg => msg

/-- `fmt.Errorf(msg)` with a single pre-formatted string and no operands
(client.go:140, client.go:143): the message is re-interpreted as a format
string, so any `%` sequence it contains is mangled by the operand-less
`doPrintf` before it reaches the error value. -/
def goErrorf (msg : String) : GoError :=
  .errorString (goSprintfNoOperands msg)

/-- The outcome of one `rpc.Client.Call(cmd, args, reply)`: the transport is
modelled as an oracle mapping the command name and arguments to the returned
error (`none` = nil) and the contents the call left in `reply`. -/
abbrev Transport := String → Args → Option GoError × Reply

/-- Modelled from the spec: the filesystem primitives `ListAllSockets`
depends on — `diskutils.FileExists` ("a directory-existence check
primitive", package `pkg/ephemeral-disk-utils`, not among the sources) and
`ioutil.ReadDir` (returning the directory's entry names).  Either may fail
with a genuine I/O error, modelled as `Except.error`. -/
structure FileSystem where
  fileExists : String → Except String Bool
  readDir : String → Except String (List String)

/-! ## The embedded client operations (client.go) -/

/-- `ListAllSockets` (client.go:75-96): joins `baseDir` with `"sockets"`,
returns the nil slice when the directory does not exist, otherwise the
directory entries each joined onto the directory path. -/
def ListAllSockets (fs : FileSystem) (baseDir : String) : Except String (List String) :=
  let fileDir := goJoin baseDir "sockets"
  match fs.fileExists fileDir with
  | .error err => .error err
  | .ok false => .ok []
  | .ok true =>
    match fs.readDir fileDir with
    | .error err => .error err
    | .ok files => .ok (files.map (fun file => goJoin fileDir file))

/-- `SocketsDirectory` (client.go:98-100). -/
def SocketsDirectory (baseDir : String) : String :=
  goJoin baseDir "sockets"

/-- `SocketFromNamespaceName` (client.go:102-105). -/
def SocketFromNamespaceName (baseDir ns name : String) : String :=
  let sockFile := ns ++ "_" ++ name ++ "_sock"
  goJoin (SocketsDirectory baseDir) sockFile

/-- `DomainFromSocketPath` (client.go:107-117): split the path's final
segment on `"_"` limited to 3 parts; error unless exactly 3 parts result,
otherwise build the domain reference from parts 0 and 1.  (`splitNChar`
with bound 3 returns between 1 and 3 parts, so the length-3 check is the
match on a three-element list.) -/
def DomainFromSocketPath (socketPath : String) : Except String WorkloadIdentity :=
  match splitNChar '_' 3 (goBase socketPath).data with
  | [nsPart, namePart, _] => .ok ⟨⟨nsPart⟩, ⟨namePart⟩⟩
  | _ => .error ("malformed domain socket " ++ socketPath)

/-- `IsDisconnected` (client.go:217-222): identity comparison against the
three sentinel errors; nil is not disconnected. -/
def IsDisconnected : Option GoError → Bool
  | some .errShutdown => true
  | some .errUnexpectedEOF => true
  | some .eof => true
  | _ => false

/-- `genericSendCmd` (client.go:132-146): performs the call, then classifies
in priority order — a disconnect is returned unchanged, any other call error
is wrapped as an "unknown error" string, a reply with `Success == false` is
wrapped as a "server error" string carrying the reply's message, and
otherwise the reply is returned with a nil error.  Both wrapped messages are
built by `fmt.Sprintf` — whose `%s` verbs substitute the operands verbatim,
modelled by `++` — and the result is then passed to `fmt.Errorf` as a format
string with no operands (`goErrorf`), re-interpreting any `%` the operands
contained. -/
def genericSendCmd (call : Transport) (args : Args) (cmd : String) : Reply × Option GoError :=
  match call cmd args with
  | (err, reply) =>
    if IsDisconnected err then (reply, err)
    else
      match err with
      | some e =>
        (reply, some (goErrorf
          ("unknown error encountered sending command " ++ cmd ++ ": " ++ e.Error)))
      | none =>
        if reply.Success ≠ true then
          (reply, some (goErrorf
            ("server error. command " ++ cmd ++ " failed: " ++ reply.Message)))
        else (reply, none)

/-- `ShutdownVirtualMachine` (client.go:148-157). -/
def ShutdownVirtualMachine (call : Transport) (vm : Option VirtualMachine) : Option GoError :=
  (genericSendCmd call { VM := vm } "Launcher.Shutdown").2

/-- `KillVirtualMachine` (client.go:159-168). -/
def KillVirtualMachine (call : Transport) (vm : Option VirtualMachine) : Option GoError :=
  (genericSendCmd call { VM := vm } "Launcher.Kill").2

/-- `GetDomain` (client.go:170-188): sends `"Launcher.GetDomain"` with empty
args; on error returns (nil domain, false, err); on success returns the
reply's domain and `exists = true` when it is non-nil, and the zero-value
placeholder with `exists = false` otherwise. -/
def GetDomain (call : Transport) : Option Domain × Bool × Option GoError :=
  match genericSendCmd call {} "Launcher.GetDomain" with
  | (_, some err) => (none, false, some err)
  | (reply, none) =>
    match reply.Domain with
    | some d => (some d, true, none)
    | none => (some Domain.zero, false, none)

/-- `SyncVirtualMachine` (client.go:189-201). -/
def SyncVirtualMachine (call : Transport) (vm : Option VirtualMachine)
    (secrets : Option SecretMap) : Option GoError :=
  (genericSendCmd call { VM := vm, K8Secrets := secrets } "Launcher.Sync").2

/-- `SyncSecret` (client.go:203-215); note that the Go code populates
`VM` in addition to the three secret fields. -/
def SyncSecret (call : Transport) (vm : Option VirtualMachine)
    (usageType usageID secretValue : String) : Option GoError :=
  (genericSendCmd call
    { VM := vm, SecretUsageType := usageType, SecretUsageID := usageID,
      SecretValue := secretValue } "Launcher.SyncSecret").2

/-- `Ping` (client.go:224-230). -/
def Ping (call : Transport) : Option GoError :=
  (genericSendCmd call {} "Launcher.Ping").2

/-! ## Concrete transports and filesystems used to instantiate theorems -/

/-- A transport oracle whose reply succeeds exactly when the `VM` argument
field was left empty; it observes which argument fields an operation
populates. -/
def probeVMCall : Transport :=
  fun _ args => (none, { Success := args.VM.isNone })

/-- A transport oracle whose peer is gone: every call fails with `io.EOF`,
and the never-filled reply still holds its zero value except for a marker
message. -/
def eofCall : Transport :=
  fun _ _ => (some .eof, { Success := false, Message := "peer gone" })

/-- A transport oracle whose peer explicitly rejects every command with
message `"x"`. -/
def rejectCall : Transport :=
  fun _ _ => (none, { Success := false, Message := "x" })

/-- A transport oracle whose peer explicitly rejects every command with the
message `"50%"`, which contains `fmt`'s verb-introducing character `'%'`. -/
def percentRejectCall : Transport :=
  fun _ _ => (none, { Success := false, Message := "50%" })

/-- A transport oracle whose peer replies successfully with no domain state. -/
def emptyDomainCall : Transport :=
  fun _ _ => (none, { Success := true })

/-- A transport oracle whose peer replies successfully carrying domain `d`. -/
def domainCall (d : Domain) : Transport :=
  fun _ _ => (none, { Success := true, Domain := some d })

/-- A filesystem on which no directory exists. -/
def fsAbsent : FileSystem :=
  { fileExists := fun _ => .ok false
    readDir := fun _ => .error "unreachable" }

/-! ## Lemmas about the split primitives -/

theorem splitFirst_of_not_mem {sep : Char} {cs : List Char} (h : sep ∉ cs) :
    splitFirst sep cs = none := by
  induction cs with
  | nil => rfl
  | cons c cs ih =>
    simp only [List.mem_cons, not_or] at h
    have hc : ¬ c = sep := fun hh => h.1 hh.symm
    simp [splitFirst, hc, ih h.2]

theorem splitFirst_append {sep : Char} {pre : List Char} (post : List Char) (h : sep ∉ pre) :
    splitFirst sep (pre ++ sep :: post) = some (pre, post) := by
  induction pre with
  | nil => simp [splitFirst]
  | cons c cs ih =>
    simp only [List.mem_cons, not_or] at h
    have hc : ¬ c = sep := fun hh => h.1 hh.symm
    simp [splitFirst, hc, ih h.2]

theorem splitNChar_one (sep : Char) (cs : List Char) : splitNChar sep 1 cs = [cs] := rfl

theorem splitNChar_two_step (sep : Char) (n : Nat) (cs : List Char) :
    splitNChar sep (n + 2) cs =
      match splitFirst sep cs with
      | none => [cs]
      | some (pre, post) => pre :: splitNChar sep (n + 1) post := rfl

theorem splitNChar_three {sep : Char} {p0 p1 : List Char} (rest : List Char)
    (h0 : sep ∉ p0) (h1 : sep ∉ p1) :
    splitNChar sep 3 (p0 ++ sep :: (p1 ++ sep :: rest)) = [p0, p1, rest] := by
  show splitNChar sep (1 + 2) _ = _
  rw [splitNChar_two_step, splitFirst_append _ h0]
  show p0 :: splitNChar sep (0 + 2) _ = _
  rw [splitNChar_two_step, splitFirst_append _ h1]
  rfl

theorem splitNChar_length_le (sep : Char) (n : Nat) (cs : List Char) :
    (splitNChar sep n cs).length ≤ n := by
  induction n using Nat.strong_induction_on generalizing cs with
  | _ n ih =>
    match n with
    | 0 => simp [splitNChar]
    | 1 => simp [splitNChar]
    | m + 2 =>
      rw [splitNChar_two_step]
      cases hsf : splitFirst sep cs with
      | none => simp
      | some pr =>
        obtain ⟨pre, post⟩ := pr
        simpa using Nat.succ_le_succ (ih (m + 1) (by omega) post)

theorem splitChar_ne_nil (sep : Char) (cs : List Char) : splitChar sep cs ≠ [] := by
  cases cs with
  | nil => simp [splitChar]
  | cons c cs =>
    simp only [splitChar]
    split
    · simp
    · split <;> simp

theorem splitChar_of_not_mem {sep : Char} {cs : List Char} (h : sep ∉ cs) :
    splitChar sep cs = [cs] := by
  induction cs with
  | nil => rfl
  | cons c cs ih =>
    simp only [List.mem_cons, not_or] at h
    have hc : ¬ c = sep := fun hh => h.1 hh.symm
    simp [splitChar, hc, ih h.2]

theorem splitChar_append (sep : Char) (xs ys : List Char) :
    splitChar sep (xs ++ sep :: ys) = splitChar sep xs ++ splitChar sep ys := by
  induction xs with
  | nil => simp [splitChar]
  | cons c cs ih =>
    by_cases hc : c = sep
    · subst hc
      simp [splitChar, ih]
    · rcases hsc : splitChar sep cs with _ | ⟨p, ps⟩
      · exact absurd hsc (splitChar_ne_nil sep cs)
      · simp [splitChar, hc, ih, hsc]

/-! ## Lemmas about `countChar` -/

theorem countChar_append (c : Char) (xs ys : List Char) :
    countChar c (xs ++ ys) = countChar c xs + countChar c ys := by
  induction xs with
  | nil => simp [countChar]
  | cons x xs ih => simp [countChar, ih]; omega

theorem countChar_eq_zero {c : Char} {cs : List Char} (h : c ∉ cs) :
    countChar c cs = 0 := by
  induction cs with
  | nil => rfl
  | cons x xs ih =>
    simp only [List.mem_cons, not_or] at h
    have hx : ¬ x = c := fun hh => h.1 hh.symm
    simp [countChar, hx, ih h.2]

theorem exists_split_of_countChar_pos {c : Char} {cs : List Char}
    (h : 0 < countChar c cs) :
    ∃ xs ys, cs = xs ++ c :: ys ∧ c ∉ xs := by
  induction cs with
  | nil => simp [countChar] at h
  | cons x xs ih =>
    by_cases hx : x = c
    · exact ⟨[], xs, by simp [hx], by simp⟩
    · have hpos : 0 < countChar c xs := by simpa [countChar, hx] using h
      obtain ⟨as, bs, hdecomp, hnot⟩ := ih hpos
      refine ⟨x :: as, bs, by rw [hdecomp]; rfl, ?_⟩
      intro hmem
      rcases List.mem_cons.mp hmem with hh | hh
      · exact hx hh.symm
      · exact hnot hh

theorem countChar_cons_self (c : Char) (ys : List Char) :
    countChar c (c :: ys) = 1 + countChar c ys := by
  rw [countChar, if_pos rfl]

theorem exists_two_seps {c : Char} {cs : List Char} (h : 2 ≤ countChar c cs) :
    ∃ p0 p1 r, cs = p0 ++ c :: (p1 ++ c :: r) ∧ c ∉ p0 ∧ c ∉ p1 := by
  obtain ⟨p0, ys, hdecomp, h0⟩ := @exists_split_of_countChar_pos c cs (by omega)
  have hys : 0 < countChar c ys := by
    rw [hdecomp, countChar_append, countChar_eq_zero h0, countChar_cons_self] at h
    omega
  obtain ⟨p1, r, hdecomp2, h1⟩ := exists_split_of_countChar_pos hys
  exact ⟨p0, p1, r, by rw [hdecomp, hdecomp2], h0, h1⟩

/-! ## Lemmas about `filepath.Clean`, `filepath.Join`, `filepath.Base` -/

theorem cleanStep_push (rooted : Bool) (s : List (List Char)) {e : List Char}
    (h1 : e ≠ []) (h2 : e ≠ ['.']) (h3 : e ≠ ['.', '.']) :
    cleanStep rooted s e = e :: s := by
  rw [cleanStep.eq_def, if_neg (by simp [h1, h2]), if_neg h3]

theorem cleanFold_append (rooted : Bool) (s : List (List Char))
    (es fs : List (List Char)) :
    cleanFold rooted s (es ++ fs) = cleanFold rooted (cleanFold rooted s es) fs :=
  List.foldl_append _ _ _ _

theorem intercalateChar_cons_cons (sep : Char) (p q : List Char) (ps : List (List Char)) :
    intercalateChar sep (p :: q :: ps) = p ++ sep :: intercalateChar sep (q :: ps) := rfl

theorem intercalateChar_append_last (sep : Char) (L : List (List Char)) (b : List Char)
    (hL : L ≠ []) :
    intercalateChar sep (L ++ [b]) = intercalateChar sep L ++ sep :: b := by
  induction L with
  | nil => exact absurd rfl hL
  | cons p ps ih =>
    cases ps with
    | nil => rfl
    | cons q qs =>
      have hrec := ih (List.cons_ne_nil q qs)
      show intercalateChar sep (p :: ((q :: qs) ++ [b])) = _
      rw [show (q :: qs) ++ [b] = q :: (qs ++ [b]) from rfl,
        intercalateChar_cons_cons, show q :: (qs ++ [b]) = (q :: qs) ++ [b] from rfl,
        hrec, intercalateChar_cons_cons]
      simp [List.append_assoc]

theorem takeWhile_append_of_all {p : Char → Bool} {xs : List Char} (ys : List Char)
    (h : ∀ x ∈ xs, p x = true) :
    (xs ++ ys).takeWhile p = xs ++ ys.takeWhile p := by
  induction xs with
  | nil => rfl
  | cons x xs ih =>
    have hx : p x = true := h x (List.mem_cons_self x xs)
    simp only [List.cons_append, List.takeWhile_cons, hx, if_true]
    rw [ih (fun y hy => h y (List.mem_cons_of_mem x hy))]

theorem baseChars_append_of_last {x b : List Char} (hb : b ≠ []) (hsl : '/' ∉ b)
    (hx : x = [] ∨ ∃ y, x = y ++ ['/']) :
    baseChars (x ++ b) = b := by
  have hxb : x ++ b ≠ [] := fun h => hb (List.append_eq_nil.mp h).2
  rcases hbr : b.reverse with _ | ⟨c, cs⟩
  · exact absurd (by simpa using congrArg List.reverse hbr) hb
  · have hcb : c ∈ b := by
      have : c ∈ b.reverse := by rw [hbr]; exact List.mem_cons_self c cs
      simpa using this
    have hc : decide (c = '/') = false :=
      decide_eq_false (fun hh => hsl (hh ▸ hcb))
    have hrev1 : (x ++ b).reverse = c :: (cs ++ x.reverse) := by
      rw [List.reverse_append, hbr]; rfl
    have hdrop : (x ++ b).reverse.dropWhile (· = '/') = (x ++ b).reverse := by
      rw [hrev1, List.dropWhile_cons]
      simp [hc]
    have hall : ∀ a ∈ b.reverse, decide (a ≠ '/') = true := by
      intro a ha
      exact decide_eq_true (fun hh => hsl (hh ▸ (List.mem_reverse.mp ha)))
    have htake : (x ++ b).reverse.takeWhile (· ≠ '/') = b.reverse := by
      rw [List.reverse_append, takeWhile_append_of_all x.reverse hall]
      rcases hx with hx | ⟨y, hy⟩
      · simp [hx]
      · have : x.reverse = '/' :: y.reverse := by rw [hy]; simp
        rw [this, List.takeWhile_cons]
        simp
    simp only [baseChars, if_neg hxb]
    rw [hdrop, List.reverse_reverse, htake, List.reverse_reverse, if_neg hb]

theorem cleanChars_append_last (a : List Char) {b : List Char} (hb : b ≠ [])
    (hsl : '/' ∉ b) (hd1 : b ≠ ['.']) (hd2 : b ≠ ['.', '.']) :
    ∃ x, cleanChars (a ++ '/' :: b) = x ++ b ∧ (x = [] ∨ ∃ y, x = y ++ ['/']) := by
  have hsp : splitChar '/' (a ++ '/' :: b) = splitChar '/' a ++ [b] := by
    rw [splitChar_append, splitChar_of_not_mem hsl]
  have hfold : cleanFold (isRooted (a ++ '/' :: b)) [] (splitChar '/' a ++ [b])
      = b :: cleanFold (isRooted (a ++ '/' :: b)) [] (splitChar '/' a) := by
    rw [cleanFold_append]
    show cleanStep _ _ b = _
    exact cleanStep_push _ _ hb hd1 hd2
  simp only [cleanChars, hsp, hfold, List.reverse_cons]
  set S := (cleanFold (isRooted (a ++ '/' :: b)) [] (splitChar '/' a)).reverse with hS
  have hne : S ++ [b] ≠ [] := by simp
  rw [if_neg hne]
  rcases hSnil : S with _ | ⟨s0, ss⟩
  · refine ⟨if isRooted (a ++ '/' :: b) then ['/'] else [], by simp [intercalateChar], ?_⟩
    cases isRooted (a ++ '/' :: b) <;> simp
  · rw [intercalateChar_append_last _ _ _ (List.cons_ne_nil s0 ss)]
    refine ⟨(if isRooted (a ++ '/' :: b) then ['/'] else [])
      ++ (intercalateChar '/' (s0 :: ss) ++ ['/']), ?_,
      Or.inr ⟨(if isRooted (a ++ '/' :: b) then ['/'] else [])
        ++ intercalateChar '/' (s0 :: ss), by simp [List.append_assoc]⟩⟩
    simp [List.append_assoc]

theorem baseChars_joinChars (a : List Char) {b : List Char} (hb : b ≠ [])
    (hsl : '/' ∉ b) (hd1 : b ≠ ['.']) (hd2 : b ≠ ['.', '.']) :
    baseChars (joinChars a b) = b := by
  by_cases ha : a = []
  · subst ha
    rw [joinChars, if_pos rfl, if_neg hb]
    have hr : isRooted b = false := by
      rcases b with _ | ⟨c, cs⟩
      · exact absurd rfl hb
      · have : ¬ c = '/' := fun hh => hsl (hh ▸ List.mem_cons_self c cs)
        simp [isRooted, this]
    have hone : splitChar '/' b = [b] := splitChar_of_not_mem hsl
    have hclean : cleanChars b = b := by
      simp only [cleanChars, hr, hone]
      rw [show cleanFold false [] [b] = cleanStep false [] b from rfl,
        cleanStep_push _ _ hb hd1 hd2]
      simp [intercalateChar]
    rw [hclean]
    have := @baseChars_append_of_last [] b hb hsl (Or.inl rfl)
    simpa using this
  · rw [joinChars, if_neg ha]
    obtain ⟨x, hx, hform⟩ := cleanChars_append_last a hb hsl hd1 hd2
    rw [hx]
    exact baseChars_append_of_last hb hsl hform

/-! ## Decoding socket paths produced by `SocketFromNamespaceName` -/

theorem data_mk (L : List Char) : (String.mk L).data = L := rfl

theorem mk_data (s : String) : (⟨s.data⟩ : String) = s := by cases s; rfl

theorem string_eq_of_data {s t : String} (h : s.data = t.data) : s = t := by
  cases s; cases t; exact congrArg String.mk h

/-- Decoding `⟨dir⟩/p0_p1_rest` (a path whose joined-on file name has `p0`
and `p1` as its first two separator-delimited pieces and no slash) recovers
`p0` and `p1`, whatever `rest` is. -/
theorem decode_sockfile (dir : String) {p0 p1 : List Char} (rest : List Char)
    (h0 : '_' ∉ p0) (h1 : '_' ∉ p1)
    (hsl : '/' ∉ p0 ++ '_' :: (p1 ++ '_' :: rest)) :
    DomainFromSocketPath ⟨joinChars dir.data (p0 ++ '_' :: (p1 ++ '_' :: rest))⟩
      = Except.ok ⟨⟨p0⟩, ⟨p1⟩⟩ := by
  set b := p0 ++ '_' :: (p1 ++ '_' :: rest) with hbdef
  have hmem : '_' ∈ b := by rw [hbdef]; simp
  have hb : b ≠ [] := by
    intro h; rw [h] at hmem; exact absurd hmem (by decide)
  have hd1 : b ≠ ['.'] := by
    intro h; rw [h] at hmem; exact absurd hmem (by decide)
  have hd2 : b ≠ ['.', '.'] := by
    intro h; rw [h] at hmem; exact absurd hmem (by decide)
  have hbase : baseChars (joinChars dir.data b) = b :=
    baseChars_joinChars dir.data hb hsl hd1 hd2
  simp only [DomainFromSocketPath, goBase, data_mk, hbase, hbdef,
    splitNChar_three rest h0 h1]

/-- The character data of the socket file name `<ns>_<name>_sock`. -/
theorem sockFile_data (ns name : String) :
    (ns ++ "_" ++ name ++ "_sock").data
      = ns.data ++ '_' :: (name.data ++ '_' :: ['s', 'o', 'c', 'k']) := by
  rw [String.data_append, String.data_append, String.data_append]
  show (ns.data ++ ['_']) ++ name.data ++ ['_', 's', 'o', 'c', 'k'] = _
  simp [List.append_assoc]

theorem SocketFromNamespaceName_data (baseDir ns name : String) :
    (SocketFromNamespaceName baseDir ns name).data
      = joinChars (SocketsDirectory baseDir).data (ns ++ "_" ++ name ++ "_sock").data := rfl

/-- Round trip: decoding a derived address recovers the identity, provided
neither component contains the separator `'_'` nor the path separator `'/'`. -/
theorem roundTrip (baseDir ns name : String)
    (h1 : '_' ∉ ns.data) (h2 : '/' ∉ ns.data)
    (h3 : '_' ∉ name.data) (h4 : '/' ∉ name.data) :
    DomainFromSocketPath (SocketFromNamespaceName baseDir ns name)
      = Except.ok ⟨ns, name⟩ := by
  have hdata : (SocketFromNamespaceName baseDir ns name).data
      = joinChars (SocketsDirectory baseDir).data
          (ns.data ++ '_' :: (name.data ++ '_' :: ['s', 'o', 'c', 'k'])) := by
    rw [SocketFromNamespaceName_data, sockFile_data]
  have hsock : SocketFromNamespaceName baseDir ns name
      = String.mk (joinChars (SocketsDirectory baseDir).data
          (ns.data ++ '_' :: (name.data ++ '_' :: ['s', 'o', 'c', 'k']))) :=
    string_eq_of_data hdata
  rw [hsock]
  have hsl : '/' ∉ ns.data ++ '_' :: (name.data ++ '_' :: ['s', 'o', 'c', 'k']) := by
    intro hmem
    rcases List.mem_append.mp hmem with hm | hm
    · exact h2 hm
    · rcases List.mem_cons.mp hm with hm | hm
      · exact absurd hm (by decide)
      · rcases List.mem_append.mp hm with hm | hm
        · exact h4 hm
        · exact absurd hm (by decide)
  rw [decode_sockfile (SocketsDirectory baseDir) ['s', 'o', 'c', 'k'] h1 h3 hsl,
    mk_data, mk_data]

/-- Decoding a derived address whose name component contains the separator:
the decode succeeds and silently truncates the name at its first separator,
provided no component contains `'/'`. -/
theorem truncTrip (baseDir ns n1 n2 : String)
    (h0 : '_' ∉ ns.data) (h2 : '/' ∉ ns.data)
    (h3 : '_' ∉ n1.data) (h4 : '/' ∉ n1.data) (h5 : '/' ∉ n2.data) :
    DomainFromSocketPath (SocketFromNamespaceName baseDir ns (n1 ++ "_" ++ n2))
      = Except.ok ⟨ns, n1⟩ := by
  have hname : (n1 ++ "_" ++ n2).data = n1.data ++ '_' :: n2.data := by
    rw [String.data_append, String.data_append]
    show (n1.data ++ ['_']) ++ n2.data = _
    simp [List.append_assoc]
  have hdata : (SocketFromNamespaceName baseDir ns (n1 ++ "_" ++ n2)).data
      = joinChars (SocketsDirectory baseDir).data
          (ns.data ++ '_' :: (n1.data ++ '_' :: (n2.data ++ '_' :: ['s', 'o', 'c', 'k']))) := by
    rw [SocketFromNamespaceName_data, sockFile_data, hname]
    simp [List.append_assoc]
  have hsock : SocketFromNamespaceName baseDir ns (n1 ++ "_" ++ n2)
      = String.mk (joinChars (SocketsDirectory baseDir).data
          (ns.data ++ '_' :: (n1.data ++ '_' :: (n2.data ++ '_' :: ['s', 'o', 'c', 'k'])))) :=
    string_eq_of_data hdata
  rw [hsock]
  have hsl : '/' ∉ ns.data ++ '_' :: (n1.data ++ '_' :: (n2.data ++ '_' :: ['s', 'o', 'c', 'k'])) := by
    intro hmem
    rcases List.mem_append.mp hmem with hm | hm
    · exact h2 hm
    · rcases List.mem_cons.mp hm with hm | hm
      · exact absurd hm (by decide)
      · rcases List.mem_append.mp hm with hm | hm
        · exact h4 hm
        · rcases List.mem_cons.mp hm with hm | hm
          · exact absurd hm (by decide)
          · rcases List.mem_append.mp hm with hm | hm
            · exact h5 hm
            · exact absurd hm (by decide)
  rw [decode_sockfile (SocketsDirectory baseDir) (n2.data ++ '_' :: ['s', 'o', 'c', 'k'])
      h0 h3 hsl, mk_data, mk_data]

/-! ## Lemmas about the operand-less `fmt` formatting -/

theorem doPrintfNoArgsAux_no_percent {cs : List Char} {n : Nat}
    (h : '%' ∉ cs) (hn : cs.length ≤ n) : doPrintfNoArgsAux n cs = cs := by
  induction n generalizing cs with
  | zero =>
    cases cs with
    | nil => rfl
    | cons c cs => simp at hn
  | succ n ih =>
    cases cs with
    | nil => rfl
    | cons c cs =>
      simp only [List.mem_cons, not_or] at h
      have hc : ¬ c = '%' := fun hh => h.1 hh.symm
      have hn2 : cs.length ≤ n := by
        simp only [List.length_cons] at hn
        omega
      rw [doPrintfNoArgsAux, if_neg hc, ih h.2 hn2]

/-- A format string containing no `'%'` is rendered unchanged by the
operand-less `doPrintf`. -/
theorem goSprintfNoOperands_no_percent {msg : String} (h : '%' ∉ msg.data) :
    goSprintfNoOperands msg = msg := by
  show String.mk (doPrintfNoArgsAux msg.data.length msg.data) = msg
  rw [doPrintfNoArgsAux_no_percent h (le_refl _)]

theorem goErrorf_no_percent {msg : String} (h : '%' ∉ msg.data) :
    goErrorf msg = GoError.errorString msg := by
  show GoError.errorString (goSprintfNoOperands msg) = _
  rw [goSprintfNoOperands_no_percent h]

/-! ## Claim C1 — round-trip law -/

/-- **C1** (amended): for every base directory and every identity whose
components contain neither the separator character `'_'` nor the path
separator `'/'`, decoding the address derived by `SocketFromNamespaceName`
with `DomainFromSocketPath` recovers exactly the original namespace and
name.  (As originally stated — forbidding only `'_'` — the claim fails,
because `filepath.Clean` and `filepath.Base` rewrite components containing
`'/'`; see the counterexample.) -/
theorem C1_roundtrip (baseDir ns name : String)
    (h1 : '_' ∉ ns.data) (h2 : '_' ∉ name.data)
    (h3 : '/' ∉ ns.data) (h4 : '/' ∉ name.data) :
    DomainFromSocketPath (SocketFromNamespaceName baseDir ns name)
      = Except.ok ⟨ns, name⟩ :=
  roundTrip baseDir ns name h1 h3 h2 h4

/-- **C1** witness: the spec's own scenario, evaluated concretely. -/
theorem C1_roundtrip_witness :
    ('_' ∉ "default".data ∧ '_' ∉ "vm1".data ∧ '/' ∉ "default".data ∧ '/' ∉ "vm1".data)
    ∧ DomainFromSocketPath (SocketFromNamespaceName "/run/x" "default" "vm1")
        = Except.ok ⟨"default", "vm1"⟩ :=
  ⟨⟨by decide, by decide, by decide, by decide⟩,
    C1_roundtrip "/run/x" "default" "vm1" (by decide) (by decide) (by decide) (by decide)⟩

/-- **C1** counterexample: namespace `"a/b"` and name `"c"` contain no
separator `'_'`, yet the derived address decodes to namespace `"b"`, not
`"a/b"` — the round-trip law as stated is false. -/
theorem C1_counterexample :
    '_' ∉ "a/b".data ∧ '_' ∉ "c".data
    ∧ DomainFromSocketPath (SocketFromNamespaceName "/run/x" "a/b" "c")
        = Except.ok ⟨"b", "c"⟩
    ∧ ("b" : String) ≠ "a/b" :=
  ⟨by decide, by decide, rfl, by decide⟩

/-! ## Claim C8 — determinism, the concrete scenario, and injectivity -/

/-- **C8** (amended): `SocketFromNamespaceName` is a pure function of its
arguments (determinism is immediate: the embedding is a function, stated
below as the first conjunct applied to equal argument lists), the spec's
concrete scenario holds, and the derivation is injective on identities whose
components contain neither `'_'` nor `'/'` — even across distinct base
directories.  (Injectivity under the original hypothesis — components free
of `'_'` only — is false; see the counterexample.) -/
theorem C8_address_derivation :
    (∀ b1 b2 ns1 name1 ns2 name2 : String, b1 = b2 → ns1 = ns2 → name1 = name2 →
      SocketFromNamespaceName b1 ns1 name1 = SocketFromNamespaceName b2 ns2 name2)
    ∧ SocketFromNamespaceName "/run/x" "default" "vm1" = "/run/x/sockets/default_vm1_sock"
    ∧ (∀ b1 b2 ns1 name1 ns2 name2 : String,
        '_' ∉ ns1.data → '/' ∉ ns1.data → '_' ∉ name1.data → '/' ∉ name1.data →
        '_' ∉ ns2.data → '/' ∉ ns2.data → '_' ∉ name2.data → '/' ∉ name2.data →
        SocketFromNamespaceName b1 ns1 name1 = SocketFromNamespaceName b2 ns2 name2 →
        ns1 = ns2 ∧ name1 = name2) := by
  refine ⟨?_, by decide, ?_⟩
  · intro b1 b2 ns1 name1 ns2 name2 hb hns hname
    rw [hb, hns, hname]
  · intro b1 b2 ns1 name1 ns2 name2 h1 h2 h3 h4 h5 h6 h7 h8 heq
    have r1 := roundTrip b1 ns1 name1 h1 h2 h3 h4
    have r2 := roundTrip b2 ns2 name2 h5 h6 h7 h8
    rw [heq, r2] at r1
    simp only [Except.ok.injEq, WorkloadIdentity.mk.injEq] at r1
    exact ⟨r1.1.symm, r1.2.symm⟩

/-- **C8** witness: the injectivity conjunct applied at a concrete
identity. -/
theorem C8_address_derivation_witness :
    ('_' ∉ "default".data ∧ '/' ∉ "default".data ∧ '_' ∉ "vm1".data ∧ '/' ∉ "vm1".data
      ∧ SocketFromNamespaceName "/run/x" "default" "vm1"
          = SocketFromNamespaceName "/run/x" "default" "vm1")
    ∧ ("default" : String) = "default" ∧ ("vm1" : String) = "vm1" :=
  ⟨⟨by decide, by decide, by decide, by decide, rfl⟩,
    C8_address_derivation.2.2 "/run/x" "/run/x" "default" "vm1" "default" "vm1"
      (by decide) (by decide) (by decide) (by decide)
      (by decide) (by decide) (by decide) (by decide) rfl⟩

/-- **C8** counterexample: the distinct identities `{ns:"a//b", name:"c"}`
and `{ns:"a/b", name:"c"}` contain no separator `'_'`, yet both derive the
same address — `filepath.Clean` collapses the doubled slash — so injectivity
as stated is false. -/
theorem C8_counterexample :
    '_' ∉ "a//b".data ∧ '_' ∉ "a/b".data ∧ '_' ∉ "c".data
    ∧ SocketFromNamespaceName "/run/x" "a//b" "c" = SocketFromNamespaceName "/run/x" "a/b" "c"
    ∧ ("a//b" : String) ≠ "a/b" :=
  ⟨by decide, by decide, by decide, rfl, by decide⟩

/-! ## Claim C9 — no validation of the `sock` suffix -/

/-- **C9**: for every path whose final segment contains at least two
separator characters, decoding succeeds and returns the first two
`'_'`-delimited pieces as namespace and name — the third piece is never
compared against the literal `"sock"`. -/
theorem C9_no_suffix_validation (path : String)
    (h : 2 ≤ countChar '_' (goBase path).data) :
    ∃ p0 p1 r, (goBase path).data = p0 ++ '_' :: (p1 ++ '_' :: r)
      ∧ '_' ∉ p0 ∧ '_' ∉ p1
      ∧ (splitChar '_' (goBase path).data).take 2 = [p0, p1]
      ∧ DomainFromSocketPath path = Except.ok ⟨⟨p0⟩, ⟨p1⟩⟩ := by
  obtain ⟨p0, p1, r, hdec, h0, h1⟩ := exists_two_seps h
  refine ⟨p0, p1, r, hdec, h0, h1, ?_, ?_⟩
  · rw [hdec, splitChar_append, splitChar_of_not_mem h0, splitChar_append,
      splitChar_of_not_mem h1]
    rfl
  · simp only [DomainFromSocketPath, hdec, splitNChar_three r h0 h1]

/-- **C9** witness: the final segment `"a_b_c"` has two separators and a
third piece `"c" ≠ "sock"`, and decoding succeeds with `{ns:"a", name:"b"}`. -/
theorem C9_no_suffix_validation_witness :
    2 ≤ countChar '_' (goBase "a_b_c").data
    ∧ (∃ p0 p1 r, (goBase "a_b_c").data = p0 ++ '_' :: (p1 ++ '_' :: r)
        ∧ '_' ∉ p0 ∧ '_' ∉ p1
        ∧ (splitChar '_' (goBase "a_b_c").data).take 2 = [p0, p1]
        ∧ DomainFromSocketPath "a_b_c" = Except.ok ⟨⟨p0⟩, ⟨p1⟩⟩)
    ∧ DomainFromSocketPath "a_b_c" = Except.ok ⟨"a", "b"⟩ :=
  ⟨by decide, C9_no_suffix_validation "a_b_c" (by decide), rfl⟩

/-! ## Claim C10 — lossy decode when the name contains the separator -/

/-- **C10** (amended): when the namespace is separator-free and the name
contains the separator, decoding the derived address does not fail: the
limited three-way split returns the name truncated at its first separator —
provided no component contains `'/'`.  (With a `'/'` in the name the decode
can instead fail outright; see the counterexample.)  The name is written
`n1 ++ "_" ++ n2` with `'_' ∉ n1`, so `n1` is exactly the name up to its
first separator. -/
theorem C10_truncating_decode (baseDir ns n1 n2 : String)
    (h0 : '_' ∉ ns.data) (h1 : '_' ∉ n1.data)
    (h2 : '/' ∉ ns.data) (h3 : '/' ∉ n1.data) (h4 : '/' ∉ n2.data) :
    DomainFromSocketPath (SocketFromNamespaceName baseDir ns (n1 ++ "_" ++ n2))
      = Except.ok ⟨ns, n1⟩ :=
  truncTrip baseDir ns n1 n2 h0 h2 h1 h3 h4

/-- **C10** witness: identity `{ns:"x", name:"a_b"}` decodes to
`{ns:"x", name:"a"}` — a silent truncation, not an error. -/
theorem C10_truncating_decode_witness :
    ('_' ∉ "x".data ∧ '_' ∉ "a".data ∧ '/' ∉ "x".data ∧ '/' ∉ "a".data ∧ '/' ∉ "b".data)
    ∧ DomainFromSocketPath (SocketFromNamespaceName "/run/x" "x" ("a" ++ "_" ++ "b"))
        = Except.ok ⟨"x", "a"⟩ :=
  ⟨⟨by decide, by decide, by decide, by decide, by decide⟩,
    C10_truncating_decode "/run/x" "x" "a" "b"
      (by decide) (by decide) (by decide) (by decide) (by decide)⟩

/-- **C10** counterexample: namespace `"x"` is separator-free and the name
`"a_b/c"` contains the separator, yet decoding the derived address *fails*
with a malformed-socket error (the `'/'` in the name moves the final path
segment), contradicting "decoding the derived address does not fail". -/
theorem C10_counterexample :
    '_' ∉ "x".data ∧ '_' ∈ "a_b/c".data
    ∧ DomainFromSocketPath (SocketFromNamespaceName "b" "x" "a_b/c")
        = Except.error "malformed domain socket b/sockets/x_a_b/c_sock" :=
  ⟨by decide, by decide, rfl⟩

/-! ## Claim C3 — malformed-path classification -/

/-- **C3**: a path whose final segment splits (on `'_'`, limited to three)
into fewer than three parts makes `DomainFromSocketPath` fail with the
malformed-socket error and no identity; a final segment yielding three parts
always succeeds. -/
theorem C3_malformed_classification (path : String) :
    ((splitNChar '_' 3 (goBase path).data).length < 3 →
        DomainFromSocketPath path = Except.error ("malformed domain socket " ++ path))
    ∧ ((splitNChar '_' 3 (goBase path).data).length = 3 →
        ∃ d, DomainFromSocketPath path = Except.ok d) := by
  constructor
  · intro hlt
    rcases hl : splitNChar '_' 3 (goBase path).data with _ | ⟨a, _ | ⟨b, _ | ⟨c, tl⟩⟩⟩
    · simp only [DomainFromSocketPath, hl]
    · simp only [DomainFromSocketPath, hl]
    · simp only [DomainFromSocketPath, hl]
    · rw [hl] at hlt
      simp only [List.length_cons] at hlt
      omega
  · intro hlen
    rcases hl : splitNChar '_' 3 (goBase path).data with _ | ⟨a, _ | ⟨b, _ | ⟨c, tl⟩⟩⟩
    · rw [hl] at hlen; simp at hlen
    · rw [hl] at hlen; simp at hlen
    · rw [hl] at hlen; simp at hlen
    · rw [hl] at hlen
      simp only [List.length_cons] at hlen
      have htl : tl = [] := List.length_eq_zero.mp (by omega)
      subst htl
      exact ⟨⟨⟨a⟩, ⟨b⟩⟩, by simp only [DomainFromSocketPath, hl]⟩

/-- **C3** witness: `"ab"` (one part) is rejected as malformed, `"a_b_c"`
(three parts) is accepted. -/
theorem C3_malformed_classification_witness :
    ((splitNChar '_' 3 (goBase "ab").data).length < 3
      ∧ DomainFromSocketPath "ab" = Except.error "malformed domain socket ab")
    ∧ ((splitNChar '_' 3 (goBase "a_b_c").data).length = 3
      ∧ ∃ d, DomainFromSocketPath "a_b_c" = Except.ok d) :=
  ⟨⟨by decide, (C3_malformed_classification "ab").1 (by decide)⟩,
    ⟨by decide, (C3_malformed_classification "a_b_c").2 (by decide)⟩⟩

/-! ## Claim C2 — disconnect classification takes priority -/

/-- **C2**: when the underlying transport call fails with a peer-gone
condition (`rpc.ErrShutdown`, `io.ErrUnexpectedEOF`, or `io.EOF`),
`genericSendCmd` returns exactly that error — recognized by
`IsDisconnected` — and never one of the wrapped `errorString` values
produced by the transport-error and application-rejection branches.  The
reply is arbitrary, so the classification holds even when the reply also
reports `Success = false`: the disconnect check takes priority over the
other two classifications. -/
theorem C2_disconnect_priority (call : Transport) (args : Args) (cmd : String)
    (h : (call cmd args).1 = some GoError.errShutdown
      ∨ (call cmd args).1 = some GoError.errUnexpectedEOF
      ∨ (call cmd args).1 = some GoError.eof) :
    (genericSendCmd call args cmd).2 = (call cmd args).1
    ∧ IsDisconnected (genericSendCmd call args cmd).2 = true
    ∧ ∀ m, (genericSendCmd call args cmd).2 ≠ some (GoError.errorString m) := by
  rcases hcall : call cmd args with ⟨err, reply⟩
  rw [hcall] at h
  simp only at h
  have hdisc : IsDisconnected err = true := by
    rcases h with h | h | h <;> rw [h] <;> rfl
  have hres : genericSendCmd call args cmd = (reply, err) := by
    simp [genericSendCmd, hcall, hdisc]
  rw [hres]
  refine ⟨rfl, hdisc, ?_⟩
  intro m hm
  rcases h with h | h | h <;> rw [h] at hm <;> simp at hm

/-- **C2** witness: a transport whose every call fails with `io.EOF` (and
whose reply even reports failure) still yields the `io.EOF` error itself,
recognized by `IsDisconnected`, never a wrapped string error. -/
theorem C2_disconnect_priority_witness :
    ((eofCall "Launcher.Ping" {}).1 = some GoError.eof
      ∧ (eofCall "Launcher.Ping" {}).2.Success = false)
    ∧ (genericSendCmd eofCall {} "Launcher.Ping").2 = some GoError.eof
    ∧ IsDisconnected (genericSendCmd eofCall {} "Launcher.Ping").2 = true
    ∧ ∀ m, (genericSendCmd eofCall {} "Launcher.Ping").2 ≠ some (GoError.errorString m) := by
  have h := C2_disconnect_priority eofCall {} "Launcher.Ping" (Or.inr (Or.inr rfl))
  exact ⟨⟨rfl, rfl⟩, h.1, h.2.1, h.2.2⟩

/-! ## Claim C5 — application rejection and the peer's message -/

/-- **C5** (amended): when transmission succeeds (`err = nil`) but the reply
has `Success = false` with message `m`, and neither the command name nor `m`
contains the character `'%'`, `genericSendCmd` returns the
application-rejection error string built from the command name and the
peer-supplied message verbatim.  (Verbatim for *every* message is false:
client.go:143 passes the already-formatted message to `fmt.Errorf` as a
format string with no operands, so a `'%'` in the peer's message is mangled
— see the counterexample.) -/
theorem C5_rejection_message (call : Transport) (args : Args) (cmd : String) (reply : Reply)
    (h : call cmd args = (none, reply)) (hf : reply.Success = false)
    (hc : '%' ∉ cmd.data) (hm : '%' ∉ reply.Message.data) :
    (genericSendCmd call args cmd).2
      = some (GoError.errorString
          ("server error. command " ++ cmd ++ " failed: " ++ reply.Message)) := by
  have hmsg : '%' ∉ ("server error. command " ++ cmd ++ " failed: " ++ reply.Message).data := by
    rw [String.data_append, String.data_append, String.data_append]
    intro hmem
    rcases List.mem_append.mp hmem with hmem | hmem
    · rcases List.mem_append.mp hmem with hmem | hmem
      · rcases List.mem_append.mp hmem with hmem | hmem
        · exact absurd hmem (by decide)
        · exact hc hmem
      · exact absurd hmem (by decide)
    · exact hm hmem
  simp [genericSendCmd, h, IsDisconnected, hf, goErrorf_no_percent hmsg]

/-- **C5** witness: the spec's scenario — a live peer replying
`success=false, message="x"` — yields the server-error string carrying
`"x"` verbatim (no `'%'` anywhere). -/
theorem C5_rejection_message_witness :
    rejectCall "Launcher.Ping" {} = (none, { Success := false, Message := "x" })
    ∧ ({ Success := false, Message := "x" } : Reply).Success = false
    ∧ '%' ∉ "Launcher.Ping".data
    ∧ '%' ∉ ({ Success := false, Message := "x" } : Reply).Message.data
    ∧ (genericSendCmd rejectCall {} "Launcher.Ping").2
        = some (GoError.errorString "server error. command Launcher.Ping failed: x") :=
  ⟨rfl, rfl, by decide, by decide,
    C5_rejection_message rejectCall {} "Launcher.Ping" _ rfl rfl (by decide) (by decide)⟩

/-- **C5** counterexample: a peer message containing `'%'` is *not* carried
verbatim — `fmt.Errorf` re-interprets the pre-formatted message as a format
string, so the rejection message `"50%"` surfaces as `"50%!(NOVERB)"`. -/
theorem C5_counterexample :
    percentRejectCall "Launcher.Ping" {} = (none, { Success := false, Message := "50%" })
    ∧ ({ Success := false, Message := "50%" } : Reply).Success = false
    ∧ (genericSendCmd percentRejectCall {} "Launcher.Ping").2
        = some (GoError.errorString "server error. command Launcher.Ping failed: 50%!(NOVERB)")
    ∧ ("server error. command Launcher.Ping failed: 50%!(NOVERB)" : String)
        ≠ "server error. command " ++ "Launcher.Ping" ++ " failed: " ++ "50%" :=
  ⟨rfl, rfl, rfl, by decide⟩

/-! ## Claim C6 — GetDomain distinguishes "no workload" from an error -/

/-- **C6**: when the underlying command succeeds (`err = nil`,
`Success = true`) but the reply carries no domain state, `GetDomain` returns
`exists = false` with the zero-value placeholder and no error; when the
reply carries a domain it returns that domain with `exists = true`. -/
theorem C6_getdomain_exists (call : Transport) (reply : Reply)
    (h : call "Launcher.GetDomain" {} = (none, reply)) (hs : reply.Success = true) :
    (reply.Domain = none → GetDomain call = (some Domain.zero, false, none))
    ∧ (∀ d, reply.Domain = some d → GetDomain call = (some d, true, none)) := by
  have hsend : genericSendCmd call {} "Launcher.GetDomain" = (reply, none) := by
    simp [genericSendCmd, h, IsDisconnected, hs]
  constructor
  · intro hd
    simp [GetDomain, hsend, hd]
  · intro d hd
    simp [GetDomain, hsend, hd]

/-- **C6** witness: a peer with no workload yields
`(zero placeholder, exists=false, nil)`; a peer with domain `⟨"d"⟩` yields
`(that domain, exists=true, nil)`. -/
theorem C6_getdomain_exists_witness :
    (emptyDomainCall "Launcher.GetDomain" {} = (none, { Success := true })
      ∧ ({ Success := true } : Reply).Success = true
      ∧ ({ Success := true } : Reply).Domain = none
      ∧ GetDomain emptyDomainCall = (some Domain.zero, false, none))
    ∧ (domainCall ⟨"d"⟩ "Launcher.GetDomain" {}
          = (none, { Success := true, Domain := some ⟨"d"⟩ })
      ∧ GetDomain (domainCall ⟨"d"⟩) = (some ⟨"d"⟩, true, none)) :=
  ⟨⟨rfl, rfl, rfl, (C6_getdomain_exists emptyDomainCall _ rfl rfl).1 rfl⟩,
    ⟨rfl, (C6_getdomain_exists (domainCall ⟨"d"⟩) _ rfl rfl).2 ⟨"d"⟩ rfl⟩⟩

/-! ## Claim C7 — the named operations and their argument shapes -/

/-- **C7** (amended): each named operation invokes `genericSendCmd` with
exactly its fixed command name and argument record, written out field by
field.  As the spec's table states it for five of the six operations; for
`SyncSecret` the code populates the workload definition `VM` *in addition
to* the three secret fields (see the counterexample against the original
"only usage type, usage ID and secret value" wording). -/
theorem C7_named_operations :
    (∀ (call : Transport) (vm : Option VirtualMachine) (secrets : Option SecretMap),
      SyncVirtualMachine call vm secrets
        = (genericSendCmd call
            { VM := vm, K8Secrets := secrets, SecretUsageType := "",
              SecretUsageID := "", SecretValue := "" } "Launcher.Sync").2)
    ∧ (∀ (call : Transport) (vm : Option VirtualMachine),
      ShutdownVirtualMachine call vm
        = (genericSendCmd call
            { VM := vm, K8Secrets := none, SecretUsageType := "",
              SecretUsageID := "", SecretValue := "" } "Launcher.Shutdown").2)
    ∧ (∀ (call : Transport) (vm : Option VirtualMachine),
      KillVirtualMachine call vm
        = (genericSendCmd call
            { VM := vm, K8Secrets := none, SecretUsageType := "",
              SecretUsageID := "", SecretValue := "" } "Launcher.Kill").2)
    ∧ (∀ (call : Transport) (vm : Option VirtualMachine) (t i v : String),
      SyncSecret call vm t i v
        = (genericSendCmd call
            { VM := vm, K8Secrets := none, SecretUsageType := t,
              SecretUsageID := i, SecretValue := v } "Launcher.SyncSecret").2)
    ∧ (∀ call : Transport,
      Ping call
        = (genericSendCmd call
            { VM := none, K8Secrets := none, SecretUsageType := "",
              SecretUsageID := "", SecretValue := "" } "Launcher.Ping").2)
    ∧ (∀ call : Transport,
      GetDomain call =
        match genericSendCmd call
            { VM := none, K8Secrets := none, SecretUsageType := "",
              SecretUsageID := "", SecretValue := "" } "Launcher.GetDomain" with
        | (_, some err) => (none, false, some err)
        | (reply, none) =>
          match reply.Domain with
          | some d => (some d, true, none)
          | none => (some Domain.zero, false, none)) :=
  ⟨fun _ _ _ => rfl, fun _ _ => rfl, fun _ _ => rfl, fun _ _ _ _ _ => rfl,
    fun _ => rfl, fun _ => rfl⟩

/-- **C7** counterexample: `SyncSecret` does *not* send only the three
secret fields — a transport that answers success exactly when `VM` was left
empty distinguishes the actual call (which populates `VM`) from the
claimed one. -/
theorem C7_counterexample :
    SyncSecret probeVMCall (some ⟨"vm"⟩) "t" "i" "v"
      ≠ (genericSendCmd probeVMCall
          { VM := none, K8Secrets := none, SecretUsageType := "t",
            SecretUsageID := "i", SecretValue := "v" } "Launcher.SyncSecret").2 := by
  decide

/-! ## Claim C4 — discovery of socket files -/

/-- **C4**: when the `sockets` subdirectory does not exist,
`ListAllSockets` returns the empty list and no error; and an error is
returned only when the existence check or the directory read itself failed
with that error (never merely because the directory is absent). -/
theorem C4_list_sockets (fs : FileSystem) (baseDir : String) :
    (fs.fileExists (goJoin baseDir "sockets") = Except.ok false →
        ListAllSockets fs baseDir = Except.ok [])
    ∧ (∀ e, ListAllSockets fs baseDir = Except.error e →
        fs.fileExists (goJoin baseDir "sockets") = Except.error e
        ∨ (fs.fileExists (goJoin baseDir "sockets") = Except.ok true
            ∧ fs.readDir (goJoin baseDir "sockets") = Except.error e)) := by
  constructor
  · intro h
    simp [ListAllSockets, h]
  · intro e he
    rcases hfe : fs.fileExists (goJoin baseDir "sockets") with e1 | b
    · left
      simp only [ListAllSockets, hfe, Except.error.injEq] at he
      exact congrArg Except.error he
    · cases b
      · simp only [ListAllSockets, hfe] at he
        exact Except.noConfusion he
      · right
        rcases hrd : fs.readDir (goJoin baseDir "sockets") with e2 | files
        · simp only [ListAllSockets, hfe, hrd, Except.error.injEq] at he
          exact ⟨rfl, congrArg Except.error he⟩
        · simp only [ListAllSockets, hfe, hrd] at he
          exact Except.noConfusion he

/-- **C4** witness: a filesystem on which the directory is absent yields
the empty list, not an error. -/
theorem C4_list_sockets_witness :
    fsAbsent.fileExists (goJoin "/var/run/kubevirt" "sockets") = Except.ok false
    ∧ ListAllSockets fsAbsent "/var/run/kubevirt" = Except.ok [] :=
  ⟨rfl, (C4_list_sockets fsAbsent "/var/run/kubevirt").1 rfl⟩

end CmdClient
